import Mathlib

/-!
Verification development for the nutritrack sync engine
(`src/services/sync-service.ts`).

The file shallowly embeds:
  * the Firestore codec (`serializeForFirestore` / `deserializeFromFirestore`),
  * the realtime sync controller (`startRealtimeSync` / `stopRealtimeSync` /
    `isSyncing`) together with the Dexie mutation hooks it installs and the
    `onSnapshot` handler it registers, and
  * the one-shot bulk transfer (`uploadAllData` / `downloadAllData`),
and proves/refutes the spec claims about them.
-/

namespace NutriSync

/-! ## JS value model for the codec

`serializeForFirestore` and `deserializeFromFirestore` traverse plain JS
values: strings, numbers, booleans, `null`, `undefined`, `Date` objects,
arrays and plain objects.  A `Date` is represented by its canonical
`toISOString()` form (a JS `Date` is determined by its epoch milliseconds,
and `toISOString` is injective on them, so carrying the canonical string
loses nothing the codec can observe).  Objects are finite lists of
key/value entries in insertion order, exactly what `Object.entries`
iterates.  The three types are mutually inductive so that every codec
function is plain structural recursion.
-/

mutual

inductive JVal where
  | str : String → JVal
  | num : Int → JVal
  | bool : Bool → JVal
  | null : JVal
  | undef : JVal
  | date : String → JVal
  | arr : JList → JVal
  | obj : JObj → JVal

inductive JList where
  | nil : JList
  | cons : JVal → JList → JList

inductive JObj where
  | nil : JObj
  | cons : String → JVal → JObj → JObj

end

/-- The regex `/^\d{4}-\d{2}-\d{2}T\d{2}:\d{2}:\d{2}/` of
`deserializeFromFirestore`: an unanchored-at-the-end prefix test for
`DDDD-DD-DDTDD:DD:DD` where `D` is a decimal digit. -/
def isTimestampLike (s : String) : Bool :=
  match s.data with
  | y1 :: y2 :: y3 :: y4 :: '-' :: m1 :: m2 :: '-' :: d1 :: d2 :: 'T' ::
      h1 :: h2 :: ':' :: n1 :: n2 :: ':' :: s1 :: s2 :: _ =>
    [y1, y2, y3, y4, m1, m2, d1, d2, h1, h2, n1, n2, s1, s2].all Char.isDigit
  | _ => false

mutual

/-- Entry-value logic of `serializeForFirestore` — the body of its
`for (const [key, value] of Object.entries(data))` loop applied to one
value: `Date → toISOString`, arrays map their items, non-null objects
recurse, anything else passes through. -/
def serValue : JVal → JVal
  | .date s => .str s
  | .arr xs => .arr (serItems xs)
  | .obj o => .obj (serEntries o)
  | v => v

def serItems : JList → JList
  | .nil => .nil
  | .cons x xs => .cons (serItem x) (serItems xs)

/-- Array-item logic of `serializeForFirestore`:
`item instanceof Date` maps to its ISO string; a non-null object item
recurses through `serializeForFirestore`; the rest pass.  Note a nested array
is an object in JS, so it falls into the recursive call, whose
`Object.entries` turns it into an object keyed `"0"`, `"1"`, …. -/
def serItem : JVal → JVal
  | .date s => .str s
  | .arr xs => .obj (serIdxEntries 0 xs)
  | .obj o => .obj (serEntries o)
  | v => v

def serEntries : JObj → JObj
  | .nil => .nil
  | .cons k v o => .cons k (serValue v) (serEntries o)

/-- `serializeForFirestore` applied to a JS array: `Object.entries` of an
array yields index-keyed entries, then the entry-value logic runs on each. -/
def serIdxEntries : Nat → JList → JObj
  | _, .nil => .nil
  | n, .cons x xs => .cons (toString n) (serValue x) (serIdxEntries (n + 1) xs)

end

/-- `serializeForFirestore(data)`: iterate `Object.entries(data)` and apply
the entry-value logic. -/
def serializeForFirestore (o : JObj) : JObj := serEntries o

mutual

/-- Entry-value logic of `deserializeFromFirestore`: a string matching the
timestamp pattern becomes `new Date(value)`; arrays map their items;
non-null objects recurse; anything else passes through.  (A native `Date`
cannot occur in wire data produced by this codec; since `typeof` of a
`Date` is the string object, it would recurse into `Object.entries` of
the `Date`, which is empty.) -/
def deserValue : JVal → JVal
  | .str s => if isTimestampLike s then .date s else .str s
  | .arr xs => .arr (deserItems xs)
  | .obj o => .obj (deserEntries o)
  | .date _ => .obj .nil
  | v => v

def deserItems : JList → JList
  | .nil => .nil
  | .cons x xs => .cons (deserItem x) (deserItems xs)

/-- Array-item logic of `deserializeFromFirestore`: pattern-matching
strings become dates; non-null objects (arrays included — `Array.isArray`
is not re-checked here) recurse through `deserializeFromFirestore`. -/
def deserItem : JVal → JVal
  | .str s => if isTimestampLike s then .date s else .str s
  | .arr xs => .obj (deserIdxEntries 0 xs)
  | .obj o => .obj (deserEntries o)
  | .date _ => .obj .nil
  | v => v

def deserEntries : JObj → JObj
  | .nil => .nil
  | .cons k v o => .cons k (deserValue v) (deserEntries o)

def deserIdxEntries : Nat → JList → JObj
  | _, .nil => .nil
  | n, .cons x xs => .cons (toString n) (deserValue x) (deserIdxEntries (n + 1) xs)

end

/-- `deserializeFromFirestore(data)`. -/
def deserializeFromFirestore (o : JObj) : JObj := deserEntries o

deriving instance DecidableEq for JVal
deriving instance DecidableEq for JList
deriving instance DecidableEq for JObj

/-! ### Shape classes for the round-trip law

`claimObj` is the class of values quantified over by the round-trip claim:
records whose values are scalars, timestamp values, arrays, and nested
records of the same.  A `date` payload is required to be in canonical
`toISOString` form (every JS `Date.toISOString()` output matches the
timestamp pattern), which is an invariant of the representation, not a
restriction. -/

mutual

def claimVal : JVal → Bool
  | .str _ => true
  | .num _ => true
  | .bool _ => true
  | .null => true
  | .undef => true
  | .date s => isTimestampLike s
  | .arr xs => claimItems xs
  | .obj o => claimObj o

def claimItems : JList → Bool
  | .nil => true
  | .cons x xs => claimVal x && claimItems xs

def claimObj : JObj → Bool
  | .nil => true
  | .cons _ v o => claimVal v && claimObj o

end

/-! `goodObj` is the subclass on which the round trip actually holds:
additionally, no string scalar matches the timestamp prefix pattern
(such a string would be mis-decoded as a `Date`), and no array occurs
directly inside an array (the encoder turns an inner array into an
index-keyed object, which the decoder leaves as an object). -/

mutual

def goodVal : JVal → Bool
  | .str s => !isTimestampLike s
  | .num _ => true
  | .bool _ => true
  | .null => true
  | .undef => true
  | .date s => isTimestampLike s
  | .arr xs => goodItems xs
  | .obj o => goodObj o

def goodItems : JList → Bool
  | .nil => true
  | .cons x xs => goodItem x && goodItems xs

def goodItem : JVal → Bool
  | .str s => !isTimestampLike s
  | .num _ => true
  | .bool _ => true
  | .null => true
  | .undef => true
  | .date s => isTimestampLike s
  | .arr _ => false
  | .obj o => goodObj o

def goodObj : JObj → Bool
  | .nil => true
  | .cons _ v o => goodVal v && goodObj o

end

/-! ## Entities and local stores

A synchronizable entity is a record with a string `id` primary key, an
optional `updatedAt` timestamp (epoch milliseconds of the `Date`; `none`
models the field being absent), and an opaque remainder.  The codec layer
above handles the wire representation; the sync layer below works at the
decoded-entity level, where serialize/deserialize compose to the
identity on the shapes the app stores (proved above). -/

structure Entity where
  id : String
  updatedAt : Option Nat
  rest : String
  deriving DecidableEq

/-- The five realtime-synchronized Dexie tables, in the order of the
`tables` array of `startRealtimeSync`.  (`settings` is not among them:
it takes part only in the bulk transfer.) -/
inductive CollName where
  | foods
  | dailyLogs
  | mealPlans
  | inventory
  | recipes
  deriving DecidableEq

def syncTables : List CollName :=
  [.foods, .dailyLogs, .mealPlans, .inventory, .recipes]

/-- `table.get(id)` on a keyed Dexie table modelled as a list of records
with unique ids. -/
def getK (key : α → String) (t : List α) (i : String) : Option α :=
  t.find? (fun e => key e == i)

/-- `table.put(x)`: upsert by primary key — replace the record with the
same key, or append. -/
def putK (key : α → String) : List α → α → List α
  | [], e => [e]
  | x :: xs, e => if key x == key e then e :: xs else x :: putK key xs e

/-- `table.delete(id)`: drop the record(s) with that key. -/
def delK (key : α → String) : List α → String → List α
  | [], _ => []
  | x :: xs, i => if key x == i then delK key xs i else x :: delK key xs i

def getE : List Entity → String → Option Entity := getK Entity.id
def putE : List Entity → Entity → List Entity := putK Entity.id
def delE : List Entity → String → List Entity := delK Entity.id

/-- The `UserSettings` record reduced to what the sync engine inspects:
its id (the singleton key is `"user-settings"`), the two sensitive
credential fields (`none` models absent/`undefined`), and the opaque
rest (units, goals, theme, timestamps, …). -/
structure UserSettings where
  id : String
  usdaApiKey : Option String
  aiConfig : Option String
  rest : String
  deriving DecidableEq

def getS : List UserSettings → String → Option UserSettings := getK UserSettings.id
def putS : List UserSettings → UserSettings → List UserSettings := putK UserSettings.id

/-- The local Dexie database: the five synchronized entity tables plus
the settings table. -/
structure LocalDB where
  foods : List Entity
  dailyLogs : List Entity
  mealPlans : List Entity
  inventory : List Entity
  recipes : List Entity
  settings : List UserSettings
  deriving DecidableEq

def LocalDB.table (d : LocalDB) : CollName → List Entity
  | .foods => d.foods
  | .dailyLogs => d.dailyLogs
  | .mealPlans => d.mealPlans
  | .inventory => d.inventory
  | .recipes => d.recipes

def LocalDB.setTable (d : LocalDB) : CollName → List Entity → LocalDB
  | .foods, t => { d with foods := t }
  | .dailyLogs, t => { d with dailyLogs := t }
  | .mealPlans, t => { d with mealPlans := t }
  | .inventory, t => { d with inventory := t }
  | .recipes, t => { d with recipes := t }

/-! ## Realtime sync controller (`startRealtimeSync` / `stopRealtimeSync`)

Module-level mutable state of `sync-service.ts`:
`syncListeners : Unsubscribe[]` and `currentUserId : string | null`,
plus the Dexie hook registrations (which Dexie keeps per table) and a
trace `outbox` of every remote write the service has issued through
`syncDocToFirestore` / `deleteDocFromFirestore`. -/

/-- A remote write issued by the sync service: `setDoc` of the
serialized entity at `users/{uid}/{coll}/{id}`, or `deleteDoc` of that
path. -/
inductive RemoteOp where
  | setDocOp : String → CollName → String → Entity → RemoteOp
  | deleteDocOp : String → CollName → String → RemoteOp
  deriving DecidableEq

structure SyncState where
  locDB : LocalDB
  /-- One entry per `startRealtimeSync` call that installed the Dexie
  `creating`/`updating`/`deleting` hooks; each installation covers all
  five tables and captures the `userId` of that call in its closures.
  `stopRealtimeSync` never unsubscribes hooks, so the list only grows. -/
  hooks : List String
  /-- `syncListeners`: the live `onSnapshot` subscriptions, as
  (captured `userId`, collection) pairs. -/
  listeners : List (String × CollName)
  /-- `currentUserId`. -/
  currentUserId : Option String
  /-- Trace of remote writes issued so far. -/
  outbox : List RemoteOp
  deriving DecidableEq

/-- `db[name].put(e)` as observed through the installed hooks: the table
is upserted, and every installed `creating`/`updating` hook fires,
calling `syncDocToFirestore(uid, name, e.id, e)` (for an update the hook
receives `{...obj, ...modifications}`, i.e. the full resulting entity).
This is the write path used both by the domain services and by the
`onSnapshot` handler — the puts of the handler are not marked in any
way. -/
def dexiePut (s : SyncState) (c : CollName) (e : Entity) : SyncState :=
  { s with
    locDB := s.locDB.setTable c (putE (s.locDB.table c) e)
    outbox := s.outbox ++ s.hooks.map (fun uid => RemoteOp.setDocOp uid c e.id e) }

/-- `db[name].delete(i)` as observed through the installed hooks: every
installed `deleting` hook fires, calling
`deleteDocFromFirestore(uid, name, i)`. -/
def dexieDelete (s : SyncState) (c : CollName) (i : String) : SyncState :=
  { s with
    locDB := s.locDB.setTable c (delE (s.locDB.table c) i)
    outbox := s.outbox ++ s.hooks.map (fun uid => RemoteOp.deleteDocOp uid c i) }

/-- `stopRealtimeSync()`: call every unsubscribe handle in
`syncListeners`, reset `syncListeners = []` and `currentUserId = null`.
The Dexie hooks are left installed. -/
def stopRealtimeSync (s : SyncState) : SyncState :=
  { s with listeners := [], currentUserId := none }

/-- `startRealtimeSync(userId)`: early-return if already syncing for the
same user; otherwise stop any existing sync, record the user, install
the Dexie hooks for the five tables, and open one `onSnapshot`
subscription per table. -/
def startRealtimeSync (uid : String) (s : SyncState) : SyncState :=
  if s.currentUserId = some uid then s
  else
    let s2 := stopRealtimeSync s
    { s2 with
      currentUserId := some uid
      hooks := s2.hooks ++ [uid]
      listeners := s2.listeners ++ syncTables.map (fun c => (uid, c)) }

/-- `isSyncing()`. -/
def isSyncing (s : SyncState) : Bool := s.currentUserId.isSome

/-! ## The `onSnapshot` handler (Remote Reader) -/

/-- `change.type`. -/
inductive ChangeKind where
  | added
  | modified
  | removed
  deriving DecidableEq

/-- One element of `snapshot.docChanges()`: its type, `change.doc.id`,
and `deserializeFromFirestore(change.doc.data())` at the entity level. -/
structure DocChange where
  kind : ChangeKind
  docId : String
  docData : Entity
  deriving DecidableEq

/-- The update condition of the handler:
`!localDoc || (remoteUpdatedAt && localUpdatedAt && remoteUpdatedAt > localUpdatedAt)
|| (remoteUpdatedAt && !localUpdatedAt)`.
A present `updatedAt` is a `Date` (always truthy); comparison of `Date`s
is comparison of their epoch milliseconds. -/
def shouldApplyRemote (localDoc : Option Entity) (remote : Entity) : Bool :=
  match localDoc with
  | none => true
  | some l =>
    match remote.updatedAt, l.updatedAt with
    | some r, some lu => decide (lu < r)
    | some _, none => true
    | none, _ => false

/-- The last-write-wins condition as the spec words it: there is no
local copy, or the remote `updatedAt` is strictly greater than the local
one, or the local copy lacks an `updatedAt` while the remote has one.
Spec-side counterpart of the source-derived `shouldApplyRemote`, kept
separate so the two can be compared. -/
def SpecLwwWins (old : Option Entity) (remote : Entity) : Prop :=
  old = none ∨
  (∃ l r lu, old = some l ∧ remote.updatedAt = some r ∧
    l.updatedAt = some lu ∧ lu < r) ∨
  (∃ l, old = some l ∧ l.updatedAt = none ∧ remote.updatedAt ≠ none)

/-- The body of the `onSnapshot` handler for one doc change of
collection `c`: for added/modified, fetch the local doc by
`change.doc.id`, compare timestamps, and `db[name].put(data)` when the
remote wins; for removed, `db[name].delete(id)` unconditionally.  Both
writes go through the hooked Dexie write path. -/
def applyRemoteChange (s : SyncState) (c : CollName) (ch : DocChange) : SyncState :=
  match ch.kind with
  | .removed => dexieDelete s c ch.docId
  | _ =>
    if shouldApplyRemote (getE (s.locDB.table c) ch.docId) ch.docData then
      dexiePut s c ch.docData
    else s

/-! ## Bulk transfer (`uploadAllData` / `downloadAllData`) -/

/-- `{...settings, usdaApiKey: undefined, aiConfig: undefined}` — the
settings record with the sensitive fields cleared before upload. -/
def settingsToSync (s : UserSettings) : UserSettings :=
  { s with usdaApiKey := none, aiConfig := none }

/-- One `batch.set` entry: an entity doc at `users/{uid}/{coll}/{id}`,
or the settings doc at `users/{uid}/settings/{id}`. -/
inductive BatchWrite where
  | entityDoc : String → CollName → String → Entity → BatchWrite
  | settingsDoc : String → String → UserSettings → BatchWrite
  deriving DecidableEq

/-- The single `writeBatch` assembled by `uploadAllData(userId)`: every
food, daily log, meal plan, inventory item and recipe, in that order,
followed by the settings doc (with sensitive fields cleared) when a
local settings record exists. -/
def uploadBatch (uid : String) (d : LocalDB) : List BatchWrite :=
  d.foods.map (fun e => .entityDoc uid .foods e.id e) ++
  d.dailyLogs.map (fun e => .entityDoc uid .dailyLogs e.id e) ++
  d.mealPlans.map (fun e => .entityDoc uid .mealPlans e.id e) ++
  d.inventory.map (fun e => .entityDoc uid .inventory e.id e) ++
  d.recipes.map (fun e => .entityDoc uid .recipes e.id e) ++
  (match getS d.settings "user-settings" with
   | none => []
   | some st => [.settingsDoc uid st.id (settingsToSync st)])

/-- The batches committed by `uploadAllData`: the code creates one
`writeBatch` at the top, fills it across all collections, and calls
`batch.commit()` exactly once at the end — a single batch for the whole
upload. -/
def uploadAllDataBatches (uid : String) (d : LocalDB) : List (List BatchWrite) :=
  [uploadBatch uid d]

/-- Remote document store, keyed by path. -/
structure RemoteState where
  docs : List ((String × CollName × String) × Entity)
  settingsDocs : List ((String × String) × UserSettings)
  deriving DecidableEq

def putPath [DecidableEq α] : List (α × β) → α → β → List (α × β)
  | [], k, v => [(k, v)]
  | (k2, v2) :: xs, k, v =>
    if k2 = k then (k, v) :: xs else (k2, v2) :: putPath xs k v

def applyWrite (r : RemoteState) : BatchWrite → RemoteState
  | .entityDoc uid c i e => { r with docs := putPath r.docs (uid, c, i) e }
  | .settingsDoc uid i st =>
    { r with settingsDocs := putPath r.settingsDocs (uid, i) st }

/-- `batch.commit()`: a Firestore write batch is atomic — either every
write in it is applied, or none is and the commit rejects.  `ok` models
whether the environment lets the commit succeed. -/
def commitBatch (ok : Bool) (r : RemoteState) (b : List BatchWrite) :
    Except Unit RemoteState :=
  if ok then .ok (b.foldl applyWrite r) else .error ()

/-- `uploadAllData` end to end: assemble the single batch and await its
commit; a rejection of the commit propagates to the caller (the function
body has no try/catch). -/
def uploadAllDataRun (ok : Bool) (uid : String) (d : LocalDB)
    (r : RemoteState) : Except Unit RemoteState :=
  commitBatch ok r (uploadBatch uid d)

/-- A one-shot remote snapshot (`getDocs` per collection), with each
document already decoded by `deserializeFromFirestore`. -/
structure RemoteSnapshot where
  foods : List Entity
  dailyLogs : List Entity
  mealPlans : List Entity
  inventory : List Entity
  recipes : List Entity
  settingsDocs : List UserSettings
  deriving DecidableEq

def RemoteSnapshot.docsOf (r : RemoteSnapshot) : CollName → List Entity
  | .foods => r.foods
  | .dailyLogs => r.dailyLogs
  | .mealPlans => r.mealPlans
  | .inventory => r.inventory
  | .recipes => r.recipes

/-- The settings section of `downloadAllData`: if the remote settings
snapshot is non-empty, decode its first doc; then only if a local
settings record exists under `"user-settings"`, put the remote record
with the `usdaApiKey`/`aiConfig` of the local copy spliced in.  With no
local
record, nothing is stored at all. -/
def downloadSettingsTable (docs : List UserSettings)
    (t : List UserSettings) : List UserSettings :=
  match docs with
  | [] => t
  | r :: _ =>
    match getS t "user-settings" with
    | none => t
    | some l =>
      putS t { r with usdaApiKey := l.usdaApiKey, aiConfig := l.aiConfig }

/-- `downloadAllData(userId)`: for each of the five entity collections,
fetch all remote docs and `put` each decoded doc into the local table —
no timestamp comparison on this path — then handle settings per
`downloadSettingsTable`. -/
def downloadAllData (snap : RemoteSnapshot) (d : LocalDB) : LocalDB :=
  { foods := snap.foods.foldl putE d.foods
    dailyLogs := snap.dailyLogs.foldl putE d.dailyLogs
    mealPlans := snap.mealPlans.foldl putE d.mealPlans
    inventory := snap.inventory.foldl putE d.inventory
    recipes := snap.recipes.foldl putE d.recipes
    settings := downloadSettingsTable snap.settingsDocs d.settings }

/-! ## Concrete states used by counterexample and witness theorems -/

def emptyDB : LocalDB :=
  { foods := [], dailyLogs := [], mealPlans := [], inventory := [],
    recipes := [], settings := [] }

def initState : SyncState :=
  { locDB := emptyDB, hooks := [], listeners := [], currentUserId := none,
    outbox := [] }

def oats : Entity := { id := "f1", updatedAt := some 1, rest := "Oats" }

def porridge : Entity := { id := "r1", updatedAt := some 2, rest := "Porridge" }

/-- A record holding a plain string that matches the timestamp pattern
and an array nested directly inside an array — both supported shapes per
the claim, both mangled by the codec. -/
def exBad : JObj :=
  .cons "note" (.str "2024-01-01T00:00:00")
    (.cons "grid" (.arr (.cons (.arr (.cons (.num 1) .nil)) .nil)) .nil)

/-- A typical entity wire shape: scalars, timestamps, an array of a
string and a nested record, and a nested record with a timestamp. -/
def exGood : JObj :=
  .cons "id" (.str "f1")
    (.cons "updatedAt" (.date "2024-01-01T10:00:00.000Z")
      (.cons "tags" (.arr (.cons (.str "grain")
          (.cons (.obj (.cons "k" (.num 1) .nil)) .nil)))
        (.cons "meta" (.obj (.cons "createdAt"
            (.date "2024-01-01T09:00:00.000Z") .nil)) .nil)))

def newOats : Entity := { id := "f1", updatedAt := some 2, rest := "Oats v2" }

def oatsNewer : Entity :=
  { id := "f1", updatedAt := some 100, rest := "Oats local newer" }

def stgLocal : UserSettings :=
  { id := "user-settings", usdaApiKey := some "local-usda-key",
    aiConfig := some "local-ai-config", rest := "local goals" }

def stgRemote : UserSettings :=
  { id := "user-settings", usdaApiKey := some "remote-usda-key",
    aiConfig := some "remote-ai-config", rest := "remote goals" }

def dSettingsOnly : LocalDB := { emptyDB with settings := [stgLocal] }

def exDB7 : LocalDB := { emptyDB with foods := [oats], recipes := [porridge] }

def rEmpty : RemoteState := { docs := [], settingsDocs := [] }

def sLww : SyncState :=
  { initState with locDB := { emptyDB with foods := [oats] } }

def chLww : DocChange :=
  { kind := .modified, docId := "f1", docData := newOats }

def snapFoodsOnly : RemoteSnapshot :=
  { foods := [oats], dailyLogs := [], mealPlans := [], inventory := [],
    recipes := [], settingsDocs := [] }

def dNewer : LocalDB := { emptyDB with foods := [oatsNewer] }

def snapSettingsOnly : RemoteSnapshot :=
  { foods := [], dailyLogs := [], mealPlans := [], inventory := [],
    recipes := [], settingsDocs := [stgRemote] }

/-- The collection a batch write addresses (`none` for the settings
doc). -/
def collOfWrite : BatchWrite → Option CollName
  | .entityDoc _ c _ _ => some c
  | .settingsDoc _ _ _ => none

mutual

theorem rt_val : ∀ v, goodVal v = true → deserValue (serValue v) = v
  | .str s, h => by
    simp [goodVal] at h
    simp [serValue, deserValue, h]
  | .num _, _ => rfl
  | .bool _, _ => rfl
  | .null, _ => rfl
  | .undef, _ => rfl
  | .date s, h => by
    simp [goodVal] at h
    simp [serValue, deserValue, h]
  | .arr xs, h => by
    simp [goodVal] at h
    simp [serValue, deserValue, rt_items xs h]
  | .obj o, h => by
    simp [goodVal] at h
    simp [serValue, deserValue, rt_obj o h]

theorem rt_items : ∀ xs, goodItems xs = true → deserItems (serItems xs) = xs
  | .nil, _ => rfl
  | .cons x xs, h => by
    simp [goodItems] at h
    simp [serItems, deserItems, rt_item x h.1, rt_items xs h.2]

theorem rt_item : ∀ v, goodItem v = true → deserItem (serItem v) = v
  | .str s, h => by
    simp [goodItem] at h
    simp [serItem, deserItem, h]
  | .num _, _ => rfl
  | .bool _, _ => rfl
  | .null, _ => rfl
  | .undef, _ => rfl
  | .date s, h => by
    simp [goodItem] at h
    simp [serItem, deserItem, h]
  | .arr _, h => by simp [goodItem] at h
  | .obj o, h => by
    simp [goodItem] at h
    simp [serItem, deserItem, rt_obj o h]

theorem rt_obj : ∀ o, goodObj o = true → deserEntries (serEntries o) = o
  | .nil, _ => rfl
  | .cons k v o, h => by
    simp [goodObj] at h
    simp [serEntries, deserEntries, rt_val v h.1, rt_obj o h.2]

end

/-! ## Keyed-store lemmas -/

theorem getK_putK_self (key : α → String) (t : List α) (e : α) :
    getK key (putK key t e) (key e) = some e := by
  induction t with
  | nil => simp [getK, putK]
  | cons x xs ih =>
    by_cases h : key x = key e
    · simp [getK, putK, h]
    · simp only [putK, beq_iff_eq, h, if_false]
      simpa [getK, h] using ih

theorem getK_putK_ne (key : α → String) (t : List α) (e : α) (i : String)
    (h : key e ≠ i) : getK key (putK key t e) i = getK key t i := by
  induction t with
  | nil => simp [getK, putK, h]
  | cons x xs ih =>
    by_cases hx : key x = key e
    · simp [getK, putK, hx, h]
    · simp only [putK, beq_iff_eq, hx, if_false]
      by_cases hxi : key x = i
      · simp [getK, hxi]
      · simpa [getK, hxi] using ih

theorem getK_putK_cases (key : α → String) (t : List α) (m : α) (i : String) :
    getK key (putK key t m) i = some m ∧ key m = i ∨
      getK key (putK key t m) i = getK key t i := by
  by_cases h : key m = i
  · refine Or.inl ⟨?_, h⟩
    rw [← h]
    exact getK_putK_self key t m
  · exact Or.inr (getK_putK_ne key t m i h)

theorem getK_delK_self (key : α → String) (t : List α) (i : String) :
    getK key (delK key t i) i = none := by
  induction t with
  | nil => rfl
  | cons x xs ih =>
    by_cases h : key x = i
    · simpa [delK, h] using ih
    · simp only [delK, beq_iff_eq, h, if_false]
      simpa [getK, h] using ih

theorem getK_foldl_putK_of_forall_ne (key : α → String) (l : List α)
    (t : List α) (i : String) (h : ∀ e ∈ l, key e ≠ i) :
    getK key (l.foldl (putK key) t) i = getK key t i := by
  induction l generalizing t with
  | nil => rfl
  | cons x xs ih =>
    have hx : key x ≠ i := h x (List.mem_cons_self x xs)
    have hxs : ∀ e ∈ xs, key e ≠ i := fun e he => h e (List.mem_cons_of_mem x he)
    calc getK key ((x :: xs).foldl (putK key) t) i
        = getK key (xs.foldl (putK key) (putK key t x)) i := rfl
      _ = getK key (putK key t x) i := ih (putK key t x) hxs
      _ = getK key t i := getK_putK_ne key t x i hx

theorem getK_foldl_putK_mem (key : α → String) (l : List α) (t : List α)
    (e : α) (he : e ∈ l) (hnd : (l.map key).Nodup) :
    getK key (l.foldl (putK key) t) (key e) = some e := by
  induction l generalizing t with
  | nil => cases he
  | cons x xs ih =>
    rw [List.map_cons, List.nodup_cons] at hnd
    rcases List.mem_cons.mp he with rfl | hmem
    · have hne : ∀ y ∈ xs, key y ≠ key e := by
        intro y hy hk
        exact hnd.1 (hk ▸ List.mem_map_of_mem key hy)
      calc getK key ((e :: xs).foldl (putK key) t) (key e)
          = getK key (xs.foldl (putK key) (putK key t e)) (key e) := rfl
        _ = getK key (putK key t e) (key e) :=
            getK_foldl_putK_of_forall_ne key xs (putK key t e) (key e) hne
        _ = some e := getK_putK_self key t e
    · exact ih (putK key t x) hmem hnd.2

theorem table_setTable_self (d : LocalDB) (c : CollName) (t : List Entity) :
    (d.setTable c t).table c = t := by
  cases c <;> rfl

/-- `shouldApplyRemote` agrees with the spec-side last-write-wins
condition. -/
theorem shouldApplyRemote_iff (old : Option Entity) (e : Entity) :
    shouldApplyRemote old e = true ↔ SpecLwwWins old e := by
  constructor
  · intro h
    cases old with
    | none => exact Or.inl rfl
    | some l =>
      cases hr : e.updatedAt with
      | none => simp [shouldApplyRemote, hr] at h
      | some r =>
        cases hl : l.updatedAt with
        | none => exact Or.inr (Or.inr ⟨l, rfl, hl, by simp [hr]⟩)
        | some lu =>
          simp only [shouldApplyRemote, hr, hl, decide_eq_true_eq] at h
          exact Or.inr (Or.inl ⟨l, r, lu, rfl, hr, hl, h⟩)
  · intro h
    rcases h with h | ⟨l, r, lu, hold, hr, hl, hlt⟩ | ⟨l, hold, hl, hr⟩
    · subst h; rfl
    · subst hold
      simp [shouldApplyRemote, hr, hl, hlt]
    · subst hold
      cases hr2 : e.updatedAt with
      | none => exact absurd hr2 hr
      | some r => simp [shouldApplyRemote, hr2, hl]

theorem currentUserId_startRealtimeSync (uid : String) (s : SyncState) :
    (startRealtimeSync uid s).currentUserId = some uid := by
  unfold startRealtimeSync
  split
  · assumption
  · rfl

theorem startRealtimeSync_noop (uid : String) (s : SyncState)
    (h : s.currentUserId = some uid) : startRealtimeSync uid s = s := by
  unfold startRealtimeSync
  rw [if_pos h]

theorem applyRemoteChange_not_removed (s : SyncState) (c : CollName)
    (k : ChangeKind) (i : String) (e : Entity) (hk : k ≠ ChangeKind.removed) :
    applyRemoteChange s c { kind := k, docId := i, docData := e } =
      if shouldApplyRemote (getE (s.locDB.table c) i) e then dexiePut s c e
      else s := by
  cases k with
  | added => rfl
  | modified => rfl
  | removed => exact absurd rfl hk

/-! ## Claim theorems -/

/-- C1 (code bug): the claim says every local-store write performed by
the remote-snapshot handler is marked/recognized so the outbound hooks
suppress it.  The code has no such mark: on a live session for user
`"u"` with an empty local store, applying one incoming `added` change
through the handler fires the `creating` hook, which issues an outbound
`setDoc` of the very same data — the echo the claim rules out. -/
theorem remote_apply_echoes_outbound :
    (applyRemoteChange (startRealtimeSync "u" initState) .foods
        { kind := .added, docId := "f1", docData := oats }).outbox =
      [RemoteOp.setDocOp "u" .foods "f1" oats] := by
  decide

/-- C2 (code bug): the claim says that after `stopRealtimeSync()` no
local mutation issues a remote write.  `stopRealtimeSync` unsubscribes
the snapshot listeners but never removes the Dexie hooks, so a create
performed after stopping — while `isSyncing()` reports `false` — still
issues a `setDoc` to the namespace of the stopped user. -/
theorem mutation_after_stop_still_writes :
    isSyncing (stopRealtimeSync (startRealtimeSync "u" initState)) = false ∧
      (dexiePut (stopRealtimeSync (startRealtimeSync "u" initState))
          .foods oats).outbox =
        [RemoteOp.setDocOp "u" .foods "f1" oats] := by
  decide

/-- C3: for an incoming `added`/`modified` change carrying entity `e`
with id `i`, the handler stores the remote version iff there was no
local copy with id `i`, or the remote `updatedAt` is strictly greater
than the local one, or the local copy lacks an `updatedAt` while the
remote has one; in every other case the local copy is unchanged. -/
theorem lww_conflict_policy (s : SyncState) (c : CollName) (ch : DocChange)
    (hk : ch.kind ≠ ChangeKind.removed) (hid : ch.docData.id = ch.docId) :
    (SpecLwwWins (getE (s.locDB.table c) ch.docId) ch.docData →
      getE ((applyRemoteChange s c ch).locDB.table c) ch.docId =
        some ch.docData) ∧
    (¬ SpecLwwWins (getE (s.locDB.table c) ch.docId) ch.docData →
      getE ((applyRemoteChange s c ch).locDB.table c) ch.docId =
        getE (s.locDB.table c) ch.docId) := by
  obtain ⟨k, i, e⟩ := ch
  simp only at hk hid ⊢
  rw [applyRemoteChange_not_removed s c k i e hk]
  constructor
  · intro hw
    rw [if_pos ((shouldApplyRemote_iff _ e).mpr hw)]
    show getE ((s.locDB.setTable c (putE (s.locDB.table c) e)).table c) i =
      some e
    rw [table_setTable_self, ← hid]
    exact getK_putK_self Entity.id (s.locDB.table c) e
  · intro hn
    have hb : shouldApplyRemote (getE (s.locDB.table c) i) e = false := by
      cases hsh : shouldApplyRemote (getE (s.locDB.table c) i) e
      · rfl
      · exact absurd ((shouldApplyRemote_iff _ e).mp hsh) hn
    rw [if_neg (by simp [hb])]

/-- C3 witness: a local food with `updatedAt = 1` and a `modified`
change with `updatedAt = 2` — the remote version wins and is stored. -/
theorem lww_conflict_policy_witness :
    getE ((applyRemoteChange sLww .foods chLww).locDB.table .foods) "f1" =
      some newOats :=
  (lww_conflict_policy sLww .foods chLww (by decide) (by decide)).1
    (Or.inr (Or.inl ⟨oats, 2, 1, by decide, by decide, by decide, by decide⟩))

/-- C4 (counterexample): the round-trip law fails on supported shapes.
`exBad` is a record of a string scalar and an array — supported per the
claim — yet decoding its encoding turns the timestamp-patterned string
into a `Date` and the array nested in the array into an index-keyed
object. -/
theorem roundtrip_claim_counterexample :
    claimObj exBad = true ∧
      deserializeFromFirestore (serializeForFirestore exBad) ≠ exBad := by
  decide

/-- C4 (amended): `decode(encode(x)) = x` for every record built from
scalars whose strings do not match the timestamp prefix pattern,
timestamp values, nested records, and arrays whose items are such
scalars, timestamps, or nested records (no array directly inside an
array). -/
theorem roundtrip_wire_safe_shapes (o : JObj) (h : goodObj o = true) :
    deserializeFromFirestore (serializeForFirestore o) = o :=
  rt_obj o h

/-- C4 witness: the round trip on a typical entity shape with scalars,
timestamps, an array and a nested record. -/
theorem roundtrip_wire_safe_shapes_witness :
    goodObj exGood = true ∧
      deserializeFromFirestore (serializeForFirestore exGood) = exGood :=
  ⟨by decide, roundtrip_wire_safe_shapes exGood (by decide)⟩

/-- C5: no settings write in the upload batch ever carries a value for
`usdaApiKey` or `aiConfig`; and the settings record stored by the
download path always keeps the pre-existing local `usdaApiKey` and
`aiConfig`, whatever the remote document holds. -/
theorem sensitive_fields_stay_local :
    (∀ uid d uid2 i st, BatchWrite.settingsDoc uid2 i st ∈ uploadBatch uid d →
      st.usdaApiKey = none ∧ st.aiConfig = none) ∧
    (∀ docs t,
      (getS (downloadSettingsTable docs t) "user-settings").map
          UserSettings.usdaApiKey =
        (getS t "user-settings").map UserSettings.usdaApiKey ∧
      (getS (downloadSettingsTable docs t) "user-settings").map
          UserSettings.aiConfig =
        (getS t "user-settings").map UserSettings.aiConfig) := by
  constructor
  · intro uid d uid2 i st hmem
    simp only [uploadBatch, List.mem_append, List.mem_map] at hmem
    rcases hmem with ((((⟨e, -, heq⟩ | ⟨e, -, heq⟩) | ⟨e, -, heq⟩) |
      ⟨e, -, heq⟩) | ⟨e, -, heq⟩) | h
    · exact BatchWrite.noConfusion heq
    · exact BatchWrite.noConfusion heq
    · exact BatchWrite.noConfusion heq
    · exact BatchWrite.noConfusion heq
    · exact BatchWrite.noConfusion heq
    · revert h
      cases getS d.settings "user-settings" with
      | none => intro h; cases h
      | some s2 =>
        intro h
        rw [List.mem_singleton] at h
        injection h with h1 h2 h3
        subst h3
        exact ⟨rfl, rfl⟩
  · intro docs t
    cases docs with
    | nil => exact ⟨rfl, rfl⟩
    | cons r rest =>
      cases hget : getS t "user-settings" with
      | none => simp [downloadSettingsTable, hget]
      | some l =>
        have hget2 : getK UserSettings.id t "user-settings" = some l := hget
        simp only [downloadSettingsTable, getS, putS, hget2]
        rcases getK_putK_cases UserSettings.id t
            { r with usdaApiKey := l.usdaApiKey, aiConfig := l.aiConfig }
            "user-settings" with ⟨h1, -⟩ | h1
        · rw [h1]
          exact ⟨rfl, rfl⟩
        · rw [h1, hget2]
          exact ⟨rfl, rfl⟩

/-- C5 witness: with a local settings record holding both credentials,
the uploaded settings doc carries neither, and a download that merges a
remote settings doc leaves the local `usdaApiKey` in place. -/
theorem sensitive_fields_stay_local_witness :
    ((settingsToSync stgLocal).usdaApiKey = none ∧
      (settingsToSync stgLocal).aiConfig = none) ∧
    (getS (downloadSettingsTable [stgRemote] [stgLocal])
        "user-settings").map UserSettings.usdaApiKey =
      (getS [stgLocal] "user-settings").map UserSettings.usdaApiKey :=
  ⟨sensitive_fields_stay_local.1 "u" dSettingsOnly "u" "user-settings"
      (settingsToSync stgLocal) (by decide),
    (sensitive_fields_stay_local.2 [stgRemote] [stgLocal]).1⟩

/-- C6: starting twice with the same user scope is a no-op the second
time (one set of subscriptions, nothing duplicated), and starting with a
different scope while active first tears the subscriptions of the prior
scope down, leaving exactly the five listeners of the new scope. -/
theorem session_exclusivity :
    (∀ s uid, startRealtimeSync uid (startRealtimeSync uid s) =
      startRealtimeSync uid s) ∧
    (∀ s uid, s.currentUserId ≠ some uid →
      (startRealtimeSync uid s).listeners =
          syncTables.map (fun c => (uid, c)) ∧
        (startRealtimeSync uid s).currentUserId = some uid) := by
  constructor
  · intro s uid
    exact startRealtimeSync_noop uid _ (currentUserId_startRealtimeSync uid s)
  · intro s uid h
    unfold startRealtimeSync
    rw [if_neg h]
    exact ⟨by simp [stopRealtimeSync], rfl⟩

/-- C6 witness: restarting for `"u"` is a no-op; restarting for `"u2"`
over an active `"u"` session leaves exactly the five listeners of
`"u2"`. -/
theorem session_exclusivity_witness :
    startRealtimeSync "u" (startRealtimeSync "u" initState) =
        startRealtimeSync "u" initState ∧
      (startRealtimeSync "u2" (startRealtimeSync "u" initState)).listeners =
        syncTables.map (fun c => ("u2", c)) :=
  ⟨session_exclusivity.1 initState "u",
    (session_exclusivity.2 (startRealtimeSync "u" initState) "u2"
        (by decide)).1⟩

/-- C7 (counterexample): `uploadAllData` does not commit one batch per
collection: on a store with one food and one recipe it commits exactly
one batch, and that batch holds writes for two different collections. -/
theorem upload_per_collection_batch_counterexample :
    uploadAllDataBatches "u" exDB7 =
      [[BatchWrite.entityDoc "u" .foods "f1" oats,
        BatchWrite.entityDoc "u" .recipes "r1" porridge]] ∧
      collOfWrite (BatchWrite.entityDoc "u" .foods "f1" oats) ≠
        collOfWrite (BatchWrite.entityDoc "u" .recipes "r1" porridge) := by
  decide

/-- C7 (amended): `uploadAllData` reads all local entities of every
synchronized collection and upserts each into the remote store in one
single atomic batch for the entire upload — all collections together,
all-or-nothing for the whole commit — and a commit failure propagates
to the caller while leaving the remote store untouched. -/
theorem upload_single_atomic_batch (uid : String) (d : LocalDB)
    (r : RemoteState) :
    (uploadAllDataBatches uid d).length = 1 ∧
    (∀ e ∈ d.foods,
      BatchWrite.entityDoc uid .foods e.id e ∈ uploadBatch uid d) ∧
    (∀ e ∈ d.dailyLogs,
      BatchWrite.entityDoc uid .dailyLogs e.id e ∈ uploadBatch uid d) ∧
    (∀ e ∈ d.mealPlans,
      BatchWrite.entityDoc uid .mealPlans e.id e ∈ uploadBatch uid d) ∧
    (∀ e ∈ d.inventory,
      BatchWrite.entityDoc uid .inventory e.id e ∈ uploadBatch uid d) ∧
    (∀ e ∈ d.recipes,
      BatchWrite.entityDoc uid .recipes e.id e ∈ uploadBatch uid d) ∧
    (∀ st, getS d.settings "user-settings" = some st →
      BatchWrite.settingsDoc uid st.id (settingsToSync st) ∈
        uploadBatch uid d) ∧
    uploadAllDataRun true uid d r =
      .ok ((uploadBatch uid d).foldl applyWrite r) ∧
    uploadAllDataRun false uid d r = .error () := by
  refine ⟨rfl, ?_, ?_, ?_, ?_, ?_, ?_, rfl, rfl⟩
  · intro e he
    exact List.mem_append_left _ (List.mem_append_left _
      (List.mem_append_left _ (List.mem_append_left _
        (List.mem_append_left _ (List.mem_map.mpr ⟨e, he, rfl⟩)))))
  · intro e he
    exact List.mem_append_left _ (List.mem_append_left _
      (List.mem_append_left _ (List.mem_append_left _
        (List.mem_append_right _ (List.mem_map.mpr ⟨e, he, rfl⟩)))))
  · intro e he
    exact List.mem_append_left _ (List.mem_append_left _
      (List.mem_append_left _ (List.mem_append_right _
        (List.mem_map.mpr ⟨e, he, rfl⟩))))
  · intro e he
    exact List.mem_append_left _ (List.mem_append_left _
      (List.mem_append_right _ (List.mem_map.mpr ⟨e, he, rfl⟩)))
  · intro e he
    exact List.mem_append_left _ (List.mem_append_right _
      (List.mem_map.mpr ⟨e, he, rfl⟩))
  · intro st hst
    refine List.mem_append_right _ ?_
    rw [hst]
    exact List.mem_singleton_self _

/-- C7 witness: on a concrete store, the write of a food is in the single
batch, and a failing commit surfaces the error to the caller. -/
theorem upload_single_atomic_batch_witness :
    BatchWrite.entityDoc "u" .foods "f1" oats ∈ uploadBatch "u" exDB7 ∧
      uploadAllDataRun false "u" exDB7 rEmpty = .error () :=
  ⟨by
      have h := (upload_single_atomic_batch "u" exDB7 rEmpty).2.1 oats
        (by decide)
      simpa using h,
    (upload_single_atomic_batch "u" exDB7 rEmpty).2.2.2.2.2.2.2.2⟩

/-- C8: the bulk download upserts every remote document of each
synchronized entity collection into the local store unconditionally —
the local table ends as the fold of puts of the remote docs over it,
with no timestamp comparison, so a remote doc lands even over a local
copy with a newer `updatedAt`. -/
theorem download_upserts_unconditionally (snap : RemoteSnapshot)
    (d : LocalDB) (c : CollName) (e : Entity) (he : e ∈ snap.docsOf c)
    (hnd : ((snap.docsOf c).map Entity.id).Nodup) :
    (downloadAllData snap d).table c =
        (snap.docsOf c).foldl putE (d.table c) ∧
      getE ((downloadAllData snap d).table c) e.id = some e := by
  have htab : (downloadAllData snap d).table c =
      (snap.docsOf c).foldl putE (d.table c) := by
    cases c <;> rfl
  refine ⟨htab, ?_⟩
  rw [htab]
  exact getK_foldl_putK_mem Entity.id (snap.docsOf c) (d.table c) e he hnd

/-- C8 witness: a remote food with `updatedAt = 1` overwrites a local
copy with `updatedAt = 100` during the bulk download. -/
theorem download_upserts_unconditionally_witness :
    getE ((downloadAllData snapFoodsOnly dNewer).table .foods) "f1" =
      some oats :=
  (download_upserts_unconditionally snapFoodsOnly dNewer .foods oats
      (by decide) (by decide)).2

/-- C9: an incoming `removed` change deletes the local copy with that id
unconditionally: the table becomes the keyed deletion of the previous
table, and the id is absent afterwards, whatever the `updatedAt` or
`updatedAt` or existence was. -/
theorem remote_removed_deletes_unconditionally (s : SyncState)
    (c : CollName) (i : String) (e : Entity) :
    (applyRemoteChange s c
          { kind := .removed, docId := i, docData := e }).locDB.table c =
        delE (s.locDB.table c) i ∧
      getE ((applyRemoteChange s c
          { kind := .removed, docId := i, docData := e }).locDB.table c) i =
        none := by
  have htab : (applyRemoteChange s c
      { kind := .removed, docId := i, docData := e }).locDB.table c =
      delE (s.locDB.table c) i :=
    table_setTable_self s.locDB c (delE (s.locDB.table c) i)
  refine ⟨htab, ?_⟩
  rw [htab]
  exact getK_delK_self Entity.id (s.locDB.table c) i

/-- C10: when no local settings record exists under `"user-settings"`,
`downloadAllData` stores nothing for the settings collection — the
remote settings document is dropped and the local settings table is
unchanged (absent stays absent). -/
theorem settings_download_noop_without_local (snap : RemoteSnapshot)
    (d : LocalDB) (h : getS d.settings "user-settings" = none) :
    (downloadAllData snap d).settings = d.settings := by
  show downloadSettingsTable snap.settingsDocs d.settings = d.settings
  cases snap.settingsDocs with
  | nil => rfl
  | cons r rest => simp [downloadSettingsTable, h]

/-- C10 witness: a remote settings document exists, the local settings
table is empty, and the download leaves it empty. -/
theorem settings_download_noop_without_local_witness :
    (downloadAllData snapSettingsOnly emptyDB).settings = emptyDB.settings :=
  settings_download_noop_without_local snapSettingsOnly emptyDB (by decide)

end NutriSync
